import Mathlib

/-
Verification of the Word-Alignment Scorer (`app/utils/wer_calculator.py`).

The wrapper `calculate_wer` / `calculate_simple_wer` is embedded from the
source file.  The normalization pipeline and the alignment engine live in the
third-party `jiwer` library, which is not part of this repository's sources;
they are modelled from the specification (spec.md §4.1 Text Normalizer and
§4.2 Alignment Engine), which pins the transform order, the dynamic-programming
recurrence, and the backtrace tie-break policy.
-/

namespace WER

/-- Modelled from the spec: §4.1 step 1 (and `jiwer.ToLowerCase`, absent from
src): lower-case the entire string, character by character. -/
def toLowerStr (s : String) : String :=
  String.mk (s.data.map Char.toLower)

/-- Modelled from the spec: §4.1 step 5 punctuation set (ASCII punctuation,
code points 33-47, 58-64, 91-96, 123-126). -/
def isPunct (c : Char) : Bool :=
  decide ((33 ≤ c.toNat ∧ c.toNat ≤ 47) ∨ (58 ≤ c.toNat ∧ c.toNat ≤ 64) ∨
    (91 ≤ c.toNat ∧ c.toNat ≤ 96) ∨ (123 ≤ c.toNat ∧ c.toNat ≤ 126))

/-- State machine collapsing whitespace runs: the boolean records whether the
previous character was whitespace. -/
def collapseWSAux : Bool → List Char → List Char
  | _, [] => []
  | prevWS, c :: cs =>
    if c.isWhitespace then
      if prevWS then collapseWSAux true cs
      else ' ' :: collapseWSAux true cs
    else c :: collapseWSAux false cs

/-- Modelled from the spec: §4.1 step 3 (and `jiwer.RemoveMultipleSpaces`,
absent from src): collapse runs of consecutive whitespace into one separator. -/
def removeMultipleSpaces (s : String) : String :=
  String.mk (collapseWSAux false s.data)

/-- Drop leading and trailing whitespace of a character list. -/
def stripChars (l : List Char) : List Char :=
  ((l.dropWhile Char.isWhitespace).reverse.dropWhile Char.isWhitespace).reverse

/-- Modelled from the spec: §4.1 step 4 (and `jiwer.Strip`, absent from src):
strip leading/trailing whitespace. -/
def strip (s : String) : String :=
  String.mk (stripChars s.data)

/-- Modelled from the spec: §4.1 step 5 (and `jiwer.RemovePunctuation`, absent
from src): remove punctuation characters entirely, so adjacent fragments
merge. -/
def removePunctuation (s : String) : String :=
  String.mk (s.data.filter (fun c => !isPunct c))

/-- Modelled from the spec: §4.1 step 2 (and `jiwer.RemoveEmptyStrings`,
absent from src): remove empty string tokens from the sentence list. -/
def removeEmptyStrings (l : List String) : List String :=
  l.filter (fun t => !(t == ""))

/-- Accumulator-based splitter: `acc` holds the reversed characters of the
word currently being read. -/
def splitWordsAux : List Char → List Char → List String
  | acc, [] => if acc.isEmpty then [] else [String.mk acc.reverse]
  | acc, c :: cs =>
    if c.isWhitespace then
      (if acc.isEmpty then [] else [String.mk acc.reverse]) ++ splitWordsAux [] cs
    else splitWordsAux (c :: acc) cs

/-- Split a string on whitespace into its words, dropping empty fragments.
This is both §4.1 step 6 (`jiwer.ReduceToListOfListOfWords`, absent from src)
and Python's `str.split()` used for the raw display counts. -/
def splitWords (s : String) : List String :=
  splitWordsAux [] s.data

/-- The transform pipeline of `calculate_wer`, in the exact order of the
`jiwer.Compose([...])` list in the source, each transform acting on the
running list of sentence strings. -/
def transforms : List (List String → List String) :=
  [fun l => l.map toLowerStr,
   removeEmptyStrings,
   fun l => l.map removeMultipleSpaces,
   fun l => l.map strip,
   fun l => l.map removePunctuation]

/-- Modelled from the spec: `jiwer.Compose` (absent from src) applies its
transforms in list order. -/
def composeApply (ts : List (List String → List String)) (x : List String) :
    List String :=
  ts.foldl (fun acc t => t acc) x

/-- Normalization of one input string: the composed transforms followed by the
word split (§4.1 steps 1-6), producing the ordered token sequence. -/
def normalize (s : String) : List String :=
  ((composeApply transforms [s]).map splitWords).flatten

/-- Substitution, deletion and insertion tallies of a backtrace. -/
structure Counts where
  S : Nat
  D : Nat
  I : Nat
deriving DecidableEq

/-- Row `i+1` of the dynamic-programming table, given row `i` as the function
`prev`; structural in the column index so that the table is executable. -/
def dRow (R H : List String) (prev : Nat → Nat) (i : Nat) : Nat → Nat
  | 0 => i + 1
  | j + 1 =>
    if R.getD i "" = H.getD j "" then prev j
    else 1 + min (prev j) (min (prev (j + 1)) (dRow R H prev i j))

/-- Modelled from the spec: §4.2 dynamic-programming table (the alignment is
computed by `jiwer.process_words`, absent from src).  `dTable R H i j` is
D[i][j], the minimum number of edit operations transforming the first `i`
tokens of `R` into the first `j` tokens of `H`; base cases D[i][0] = i and
D[0][j] = j; the recurrence of §4.2 holds by `dTable_succ_succ` below. -/
def dTable (R H : List String) : Nat → Nat → Nat
  | 0 => fun j => j
  | i + 1 => dRow R H (dTable R H i) i

/-- Row `i+1` of the backtrace tallies, given row `i` as the function `bprev`;
structural in the column index so that the backtrace is executable. -/
def btRow (R H : List String) (bprev : Nat → Counts) (i : Nat) : Nat → Counts
  | 0 => ⟨0, i + 1, 0⟩
  | j + 1 =>
    if R.getD i "" = H.getD j "" then bprev j
    else if dTable R H i j ≤ dTable R H i (j + 1) ∧
        dTable R H i j ≤ dTable R H (i + 1) j then
      ⟨(bprev j).S + 1, (bprev j).D, (bprev j).I⟩
    else if dTable R H i (j + 1) ≤ dTable R H (i + 1) j then
      ⟨(bprev (j + 1)).S, (bprev (j + 1)).D + 1, (bprev (j + 1)).I⟩
    else
      ⟨(btRow R H bprev i j).S, (btRow R H bprev i j).D,
        (btRow R H bprev i j).I + 1⟩

/-- Modelled from the spec: §4.2 backtrace from D[i][j] towards D[0][0],
tallying one substitution, deletion or insertion per step (matches are not
tallied), with the tie-break policy: prefer substitution, then deletion, then
insertion.  The step behaviour of §4.2 holds by `backtrace_succ_succ` below. -/
def backtrace (R H : List String) : Nat → Nat → Counts
  | 0 => fun j => ⟨0, 0, j⟩
  | i + 1 => btRow R H (backtrace R H i) i

/-- Full alignment of two normalized token sequences: backtrace from
D[m][n]. -/
def align (R H : List String) : Counts :=
  backtrace R H R.length H.length

/-- Failure conditions of the scorer (spec §7): `invalidInput` for an empty
raw input (the source raises `ValueError("Both reference and hypothesis must
be non-empty strings")`), `degenerateInput` for a reference whose
normalization has zero tokens (the library's error, re-raised by the source as
`ValueError("Error calculating WER: ...")` with a distinct message). -/
inductive WERError where
  | invalidInput
  | degenerateInput
deriving DecidableEq

/-- Embedding of the `WERResult` named tuple of the source, field for field;
the float score is modelled as a rational. -/
structure WERResult where
  wer_score : ℚ
  substitutions : Nat
  deletions : Nat
  insertions : Nat
  reference_word_count : Nat
  hypothesis_word_count : Nat
deriving DecidableEq

/-- Embedding of `calculate_wer` from `app/utils/wer_calculator.py`: reject
empty raw inputs, normalize both strings, fail when the normalized reference
is empty, otherwise align and assemble the result; the raw word counts come
from a plain whitespace split of the original inputs. -/
def calculate_wer (reference hypothesis : String) :
    Except WERError WERResult :=
  if reference = "" ∨ hypothesis = "" then .error .invalidInput
  else if (normalize reference).length = 0 then .error .degenerateInput
  else
    .ok
      { wer_score :=
          (((align (normalize reference) (normalize hypothesis)).S +
              (align (normalize reference) (normalize hypothesis)).D +
              (align (normalize reference) (normalize hypothesis)).I : Nat) : ℚ) /
            ((normalize reference).length : ℚ)
        substitutions := (align (normalize reference) (normalize hypothesis)).S
        deletions := (align (normalize reference) (normalize hypothesis)).D
        insertions := (align (normalize reference) (normalize hypothesis)).I
        reference_word_count := (splitWords reference).length
        hypothesis_word_count := (splitWords hypothesis).length }

/-- Embedding of `calculate_simple_wer` from the source: call `calculate_wer`
and keep only the `wer_score` field, propagating any failure. -/
def calculate_simple_wer (reference hypothesis : String) :
    Except WERError ℚ :=
  (calculate_wer reference hypothesis).map WERResult.wer_score

/-- Base case D[0][j] = j of the spec recurrence (§4.2). -/
theorem dTable_zero_left (R H : List String) (j : Nat) : dTable R H 0 j = j :=
  rfl

/-- Base case D[i][0] = i of the spec recurrence (§4.2). -/
theorem dTable_zero_right (R H : List String) (i : Nat) : dTable R H i 0 = i :=
  by cases i <;> rfl

/-- The interior recurrence of the spec table (§4.2): match when the tokens
agree, otherwise one plus the minimum over substitution, deletion and
insertion predecessors. -/
theorem dTable_succ_succ (R H : List String) (i j : Nat) :
    dTable R H (i + 1) (j + 1) =
      if R.getD i "" = H.getD j "" then dTable R H i j
      else 1 + min (dTable R H i j)
        (min (dTable R H i (j + 1)) (dTable R H (i + 1) j)) :=
  rfl

/-- Backtrace base case along the top edge: only insertions remain. -/
theorem backtrace_zero_left (R H : List String) (j : Nat) :
    backtrace R H 0 j = ⟨0, 0, j⟩ :=
  rfl

/-- Backtrace base case along the left edge: only deletions remain. -/
theorem backtrace_zero_right (R H : List String) (i : Nat) :
    backtrace R H i 0 = ⟨0, i, 0⟩ :=
  by cases i <;> rfl

/-- The interior backtrace step (§4.2): follow a match when the tokens agree,
otherwise prefer substitution, then deletion, then insertion among the
predecessors achieving the minimum. -/
theorem backtrace_succ_succ (R H : List String) (i j : Nat) :
    backtrace R H (i + 1) (j + 1) =
      if R.getD i "" = H.getD j "" then backtrace R H i j
      else if dTable R H i j ≤ dTable R H i (j + 1) ∧
          dTable R H i j ≤ dTable R H (i + 1) j then
        ⟨(backtrace R H i j).S + 1, (backtrace R H i j).D,
          (backtrace R H i j).I⟩
      else if dTable R H i (j + 1) ≤ dTable R H (i + 1) j then
        ⟨(backtrace R H i (j + 1)).S, (backtrace R H i (j + 1)).D + 1,
          (backtrace R H i (j + 1)).I⟩
      else
        ⟨(backtrace R H (i + 1) j).S, (backtrace R H (i + 1) j).D,
          (backtrace R H (i + 1) j).I + 1⟩ :=
  rfl

/-- The backtrace tallies sum to the edit distance D[i][j], at most `i` of
them touch the reference (substitutions and deletions) and at most `j` touch
the hypothesis (substitutions and insertions). -/
theorem backtrace_bounds (R H : List String) : ∀ i j,
    (backtrace R H i j).S + (backtrace R H i j).D + (backtrace R H i j).I =
      dTable R H i j ∧
    (backtrace R H i j).S + (backtrace R H i j).D ≤ i ∧
    (backtrace R H i j).S + (backtrace R H i j).I ≤ j := by
  intro i
  induction i with
  | zero =>
    intro j
    rw [backtrace_zero_left, dTable_zero_left]
    simp
  | succ i ih =>
    intro j
    induction j with
    | zero =>
      rw [backtrace_zero_right, dTable_zero_right]
      simp
    | succ j ihj =>
      rw [backtrace_succ_succ, dTable_succ_succ]
      by_cases h : R.getD i "" = H.getD j ""
      · rw [if_pos h, if_pos h]
        obtain ⟨h1, h2, h3⟩ := ih j
        exact ⟨h1, by omega, by omega⟩
      · rw [if_neg h, if_neg h]
        by_cases hs : dTable R H i j ≤ dTable R H i (j + 1) ∧
            dTable R H i j ≤ dTable R H (i + 1) j
        · rw [if_pos hs]
          obtain ⟨h1, h2, h3⟩ := ih j
          dsimp only
          refine ⟨by omega, by omega, by omega⟩
        · rw [if_neg hs]
          by_cases hd : dTable R H i (j + 1) ≤ dTable R H (i + 1) j
          · rw [if_pos hd]
            obtain ⟨h1, h2, h3⟩ := ih (j + 1)
            dsimp only
            refine ⟨by omega, by omega, by omega⟩
          · rw [if_neg hd]
            obtain ⟨h1, h2, h3⟩ := ihj
            dsimp only
            refine ⟨by omega, by omega, by omega⟩

/-- The edit-distance table is symmetric: exchanging the two token sequences
transposes the table. -/
theorem dTable_symm (R H : List String) : ∀ i j,
    dTable R H i j = dTable H R j i := by
  intro i
  induction i with
  | zero =>
    intro j
    rw [dTable_zero_left, dTable_zero_right]
  | succ i ih =>
    intro j
    induction j with
    | zero =>
      rw [dTable_zero_right, dTable_zero_left]
    | succ j ihj =>
      rw [dTable_succ_succ, dTable_succ_succ]
      by_cases h : R.getD i "" = H.getD j ""
      · rw [if_pos h, if_pos h.symm]
        exact ih j
      · rw [if_neg h, if_neg (fun hh => h hh.symm)]
        have e1 := ih j
        have e2 := ih (j + 1)
        have e3 := ihj
        omega

/-- Backtracing two identical token sequences from the diagonal yields no
edit operations at all. -/
theorem backtrace_diag (N : List String) : ∀ k,
    backtrace N N k k = ⟨0, 0, 0⟩ := by
  intro k
  induction k with
  | zero => rfl
  | succ k ih => rw [backtrace_succ_succ, if_pos rfl, ih]

/-- Anatomy of a successful `calculate_wer` call: both raw inputs are
non-empty, the normalized reference is non-empty, and every field of the
result is determined by the alignment of the normalized inputs and the raw
whitespace splits. -/
theorem calculate_wer_ok_elim {r h : String} {res : WERResult}
    (hok : calculate_wer r h = Except.ok res) :
    ¬(r = "" ∨ h = "") ∧ (normalize r).length ≠ 0 ∧
      res = ⟨(((align (normalize r) (normalize h)).S +
          (align (normalize r) (normalize h)).D +
          (align (normalize r) (normalize h)).I : Nat) : ℚ) /
          ((normalize r).length : ℚ),
        (align (normalize r) (normalize h)).S,
        (align (normalize r) (normalize h)).D,
        (align (normalize r) (normalize h)).I,
        (splitWords r).length, (splitWords h).length⟩ := by
  unfold calculate_wer at hok
  by_cases h1 : r = "" ∨ h = ""
  · rw [if_pos h1] at hok
    exact absurd hok (by simp)
  · rw [if_neg h1] at hok
    by_cases h2 : (normalize r).length = 0
    · rw [if_pos h2] at hok
      exact absurd hok (by simp)
    · rw [if_neg h2] at hok
      exact ⟨h1, h2, (Except.ok.inj hok).symm⟩

/-- C1: on every successful call the returned `wer_score` is
(substitutions + deletions + insertions) divided by the number of normalized
reference tokens, and the score is not capped at 1.0: for reference "hello"
and hypothesis "hello there friend" the result is 2 insertions and a score of
2.0. -/
theorem C1_wer_formula_uncapped :
    (∀ (r h : String) (res : WERResult), calculate_wer r h = Except.ok res →
      res.wer_score =
        ((res.substitutions + res.deletions + res.insertions : Nat) : ℚ) /
          ((normalize r).length : ℚ)) ∧
    calculate_wer "hello" "hello there friend" =
      Except.ok ⟨(2 : ℚ)/1, 0, 0, 2, 1, 3⟩ ∧
    ((2 : ℚ)/1) > 1 := by
  refine ⟨?_, rfl, by norm_num⟩
  intro r h res hok
  obtain ⟨-, -, hres⟩ := calculate_wer_ok_elim hok
  subst hres
  rfl

/-- Witness for C1 at reference "hello", hypothesis "hello there friend". -/
theorem C1_wer_formula_uncapped_witness :
    (⟨(2 : ℚ)/1, 0, 0, 2, 1, 3⟩ : WERResult).wer_score =
      (((⟨(2 : ℚ)/1, 0, 0, 2, 1, 3⟩ : WERResult).substitutions +
        (⟨(2 : ℚ)/1, 0, 0, 2, 1, 3⟩ : WERResult).deletions +
        (⟨(2 : ℚ)/1, 0, 0, 2, 1, 3⟩ : WERResult).insertions : Nat) : ℚ) /
        ((normalize "hello").length : ℚ) :=
  C1_wer_formula_uncapped.1 "hello" "hello there friend"
    ⟨(2 : ℚ)/1, 0, 0, 2, 1, 3⟩ rfl

/-- C2: whenever the raw reference or hypothesis string is empty, the call
fails with the InvalidInput condition, and this rejection precedes any
normalization: even "the the the" versus the empty hypothesis, and a
punctuation-only reference (which normalizes to no tokens) versus the empty
hypothesis, report InvalidInput rather than a normalization-based failure. -/
theorem C2_invalid_on_raw_empty :
    (∀ r h : String, r = "" ∨ h = "" →
      calculate_wer r h = Except.error WERError.invalidInput) ∧
    calculate_wer "the the the" "" = Except.error WERError.invalidInput ∧
    (normalize "..." = [] ∧
      calculate_wer "..." "" = Except.error WERError.invalidInput) := by
  refine ⟨?_, rfl, rfl, rfl⟩
  intro r h hemp
  unfold calculate_wer
  rw [if_pos hemp]

/-- Witness for C2 at an empty reference. -/
theorem C2_invalid_on_raw_empty_witness :
    calculate_wer "" "x" = Except.error WERError.invalidInput :=
  C2_invalid_on_raw_empty.1 "" "x" (Or.inl rfl)

/-- C3: a non-empty reference whose normalization yields zero tokens makes
the call fail with the DegenerateInput condition, which is distinct from
InvalidInput, and no success value (hence no sentinel result) is ever
returned in that case. -/
theorem C3_degenerate_reference :
    (∀ r h : String, r ≠ "" → h ≠ "" → normalize r = [] →
      calculate_wer r h = Except.error WERError.degenerateInput) ∧
    WERError.degenerateInput ≠ WERError.invalidInput ∧
    calculate_wer "..." "hi" = Except.error WERError.degenerateInput ∧
    (∀ res : WERResult, calculate_wer "..." "hi" ≠ Except.ok res) := by
  refine ⟨?_, by decide, rfl, ?_⟩
  · intro r h hr hh hnorm
    unfold calculate_wer
    rw [if_neg (by simp [hr, hh]), if_pos (by rw [hnorm]; rfl)]
  · intro res hres
    have hc : (Except.error WERError.degenerateInput :
        Except WERError WERResult) = Except.ok res := hres
    exact Except.noConfusion hc

/-- Witness for C3 at the punctuation-only reference "...". -/
theorem C3_degenerate_reference_witness :
    calculate_wer "..." "hi" = Except.error WERError.degenerateInput :=
  C3_degenerate_reference.1 "..." "hi" (by decide) (by decide) rfl

/-- C4: normalization applies lower-casing, removal of empty string tokens,
whitespace collapsing, stripping, punctuation removal and the whitespace word
split in exactly this order; removing punctuation merges adjacent fragments,
so the five-character string d-o-n-apostrophe-t becomes the single token
"dont". -/
theorem C4_normalization_pipeline :
    (∀ s : String, normalize s =
      (((((removeEmptyStrings [toLowerStr s]).map removeMultipleSpaces).map
        strip).map removePunctuation).map splitWords).flatten) ∧
    normalize (String.mk ['d', 'o', 'n', Char.ofNat 39, 't']) = ["dont"] :=
  ⟨fun _ => rfl, rfl⟩

/-- C5: every successful call reports the raw whitespace-split word counts of
the unnormalized inputs, which can differ from the normalized token counts:
"hi ..." has raw count 2 but a single normalized token. -/
theorem C5_raw_word_counts :
    (∀ (r h : String) (res : WERResult), calculate_wer r h = Except.ok res →
      res.reference_word_count = (splitWords r).length ∧
      res.hypothesis_word_count = (splitWords h).length) ∧
    (splitWords "hi ...").length = 2 ∧
    (normalize "hi ...").length = 1 ∧
    calculate_wer "hi ..." "hi" = Except.ok ⟨(0 : ℚ)/1, 0, 0, 0, 2, 1⟩ := by
  refine ⟨?_, rfl, rfl, rfl⟩
  intro r h res hok
  obtain ⟨-, -, hres⟩ := calculate_wer_ok_elim hok
  subst hres
  exact ⟨rfl, rfl⟩

/-- Witness for C5 at reference "hi ...", hypothesis "hi". -/
theorem C5_raw_word_counts_witness :
    (⟨(0 : ℚ)/1, 0, 0, 0, 2, 1⟩ : WERResult).reference_word_count =
      (splitWords "hi ...").length ∧
    (⟨(0 : ℚ)/1, 0, 0, 0, 2, 1⟩ : WERResult).hypothesis_word_count =
      (splitWords "hi").length :=
  C5_raw_word_counts.1 "hi ..." "hi" ⟨(0 : ℚ)/1, 0, 0, 0, 2, 1⟩ rfl

/-- C6: on every successful call the substitution, deletion and insertion
counts sum to the edit distance D[m][n] of the normalized token sequences,
with substitutions + deletions bounded by m and substitutions + insertions
bounded by n (the counts are natural numbers, hence non-negative). -/
theorem C6_alignment_invariants :
    ∀ (r h : String) (res : WERResult), calculate_wer r h = Except.ok res →
      res.substitutions + res.deletions + res.insertions =
        dTable (normalize r) (normalize h) (normalize r).length
          (normalize h).length ∧
      res.substitutions + res.deletions ≤ (normalize r).length ∧
      res.substitutions + res.insertions ≤ (normalize h).length := by
  intro r h res hok
  obtain ⟨-, -, hres⟩ := calculate_wer_ok_elim hok
  subst hres
  exact backtrace_bounds (normalize r) (normalize h) (normalize r).length
    (normalize h).length

/-- Witness for C6 at reference "a b a", hypothesis "b c a b". -/
theorem C6_alignment_invariants_witness :
    (⟨(3 : ℚ)/3, 0, 1, 2, 3, 4⟩ : WERResult).substitutions +
      (⟨(3 : ℚ)/3, 0, 1, 2, 3, 4⟩ : WERResult).deletions +
      (⟨(3 : ℚ)/3, 0, 1, 2, 3, 4⟩ : WERResult).insertions =
      dTable (normalize "a b a") (normalize "b c a b")
        (normalize "a b a").length (normalize "b c a b").length ∧
    (⟨(3 : ℚ)/3, 0, 1, 2, 3, 4⟩ : WERResult).substitutions +
      (⟨(3 : ℚ)/3, 0, 1, 2, 3, 4⟩ : WERResult).deletions ≤
      (normalize "a b a").length ∧
    (⟨(3 : ℚ)/3, 0, 1, 2, 3, 4⟩ : WERResult).substitutions +
      (⟨(3 : ℚ)/3, 0, 1, 2, 3, 4⟩ : WERResult).insertions ≤
      (normalize "b c a b").length :=
  C6_alignment_invariants "a b a" "b c a b" ⟨(3 : ℚ)/3, 0, 1, 2, 3, 4⟩ rfl

/-- C7: at any interior backtrace cell with unequal tokens, when the
substitution predecessor achieves the minimum it is taken, and otherwise the
deletion predecessor is taken whenever it is no worse than insertion; on
reference tokens [a, b] against [b, a], where two substitutions and a
deletion-plus-insertion both realize the edit distance 2, the policy reports
two substitutions. -/
theorem C7_tiebreak_policy :
    (∀ (R H : List String) (i j : Nat), R.getD i "" ≠ H.getD j "" →
      dTable R H i j ≤ dTable R H i (j + 1) →
      dTable R H i j ≤ dTable R H (i + 1) j →
      backtrace R H (i + 1) (j + 1) =
        ⟨(backtrace R H i j).S + 1, (backtrace R H i j).D,
          (backtrace R H i j).I⟩) ∧
    (∀ (R H : List String) (i j : Nat), R.getD i "" ≠ H.getD j "" →
      ¬(dTable R H i j ≤ dTable R H i (j + 1) ∧
        dTable R H i j ≤ dTable R H (i + 1) j) →
      dTable R H i (j + 1) ≤ dTable R H (i + 1) j →
      backtrace R H (i + 1) (j + 1) =
        ⟨(backtrace R H i (j + 1)).S, (backtrace R H i (j + 1)).D + 1,
          (backtrace R H i (j + 1)).I⟩) ∧
    align ["a", "b"] ["b", "a"] = ⟨2, 0, 0⟩ ∧
    dTable ["a", "b"] ["b", "a"] 2 2 = 2 := by
  refine ⟨?_, ?_, rfl, rfl⟩
  · intro R H i j hne hs1 hs2
    rw [backtrace_succ_succ, if_neg hne, if_pos ⟨hs1, hs2⟩]
  · intro R H i j hne hns hd
    rw [backtrace_succ_succ, if_neg hne, if_neg hns, if_pos hd]

/-- Witness for C7 at the tied cell (2,2) of [a, b] against [b, a]. -/
theorem C7_tiebreak_policy_witness :
    backtrace ["a", "b"] ["b", "a"] 2 2 =
      ⟨(backtrace ["a", "b"] ["b", "a"] 1 1).S + 1,
        (backtrace ["a", "b"] ["b", "a"] 1 1).D,
        (backtrace ["a", "b"] ["b", "a"] 1 1).I⟩ :=
  C7_tiebreak_policy.1 ["a", "b"] ["b", "a"] 1 1 (by decide) (by decide)
    (by decide)

/-- C8: whenever the two inputs normalize to the same token sequence, a
successful call reports zero substitutions, deletions and insertions and a
WER score of zero. -/
theorem C8_equal_normalized_zero :
    ∀ (r h : String) (res : WERResult), calculate_wer r h = Except.ok res →
      normalize r = normalize h →
      res.substitutions = 0 ∧ res.deletions = 0 ∧ res.insertions = 0 ∧
      res.wer_score = 0 := by
  intro r h res hok heq
  obtain ⟨-, -, hres⟩ := calculate_wer_ok_elim hok
  subst hres
  rw [heq]
  have hz : align (normalize h) (normalize h) = ⟨0, 0, 0⟩ :=
    backtrace_diag (normalize h) (normalize h).length
  rw [hz]
  refine ⟨rfl, rfl, rfl, by norm_num⟩

/-- Witness for C8 at reference "Hello, world!", hypothesis "hello world". -/
theorem C8_equal_normalized_zero_witness :
    (⟨(0 : ℚ)/2, 0, 0, 0, 2, 2⟩ : WERResult).substitutions = 0 ∧
    (⟨(0 : ℚ)/2, 0, 0, 0, 2, 2⟩ : WERResult).deletions = 0 ∧
    (⟨(0 : ℚ)/2, 0, 0, 0, 2, 2⟩ : WERResult).insertions = 0 ∧
    (⟨(0 : ℚ)/2, 0, 0, 0, 2, 2⟩ : WERResult).wer_score = 0 :=
  C8_equal_normalized_zero "Hello, world!" "hello world"
    ⟨(0 : ℚ)/2, 0, 0, 0, 2, 2⟩ rfl rfl

/-- C9 counterexample: swapping reference "a b a" and hypothesis "b c a b"
gives splits (S,D,I) = (0,1,2) and (2,1,0): the substitution count changes
and deletions/insertions do not exchange, refuting the claimed exact swap of
the split. -/
theorem C9_swap_counterexample :
    ¬(∀ (r h : String) (res swapped : WERResult),
        calculate_wer r h = Except.ok res →
        calculate_wer h r = Except.ok swapped →
        res.substitutions = swapped.substitutions ∧
        res.deletions = swapped.insertions ∧
        res.insertions = swapped.deletions) := by
  intro hcl
  have h2 := hcl "a b a" "b c a b" ⟨(3 : ℚ)/3, 0, 1, 2, 3, 4⟩
    ⟨(3 : ℚ)/4, 2, 1, 0, 4, 3⟩ rfl rfl
  exact absurd h2.1 (by decide)

/-- C9 (amended): swapping the reference and hypothesis arguments leaves the
total substitutions + deletions + insertions unchanged, though the individual
S/D/I split need not correspond. -/
theorem C9_total_symmetric :
    ∀ (r h : String) (res swapped : WERResult),
      calculate_wer r h = Except.ok res →
      calculate_wer h r = Except.ok swapped →
      res.substitutions + res.deletions + res.insertions =
        swapped.substitutions + swapped.deletions + swapped.insertions := by
  intro r h res sw hok hok'
  obtain ⟨-, -, hres⟩ := calculate_wer_ok_elim hok
  obtain ⟨-, -, hres'⟩ := calculate_wer_ok_elim hok'
  subst hres
  subst hres'
  have b1 : (align (normalize r) (normalize h)).S +
      (align (normalize r) (normalize h)).D +
      (align (normalize r) (normalize h)).I =
      dTable (normalize r) (normalize h) (normalize r).length
        (normalize h).length :=
    (backtrace_bounds (normalize r) (normalize h) (normalize r).length
      (normalize h).length).1
  have b2 : (align (normalize h) (normalize r)).S +
      (align (normalize h) (normalize r)).D +
      (align (normalize h) (normalize r)).I =
      dTable (normalize h) (normalize r) (normalize h).length
        (normalize r).length :=
    (backtrace_bounds (normalize h) (normalize r) (normalize h).length
      (normalize r).length).1
  have s := dTable_symm (normalize r) (normalize h) (normalize r).length
    (normalize h).length
  dsimp only
  omega

/-- Witness for the amended C9 at reference "a b a", hypothesis "b c a b". -/
theorem C9_total_symmetric_witness :
    (⟨(3 : ℚ)/3, 0, 1, 2, 3, 4⟩ : WERResult).substitutions +
      (⟨(3 : ℚ)/3, 0, 1, 2, 3, 4⟩ : WERResult).deletions +
      (⟨(3 : ℚ)/3, 0, 1, 2, 3, 4⟩ : WERResult).insertions =
      (⟨(3 : ℚ)/4, 2, 1, 0, 4, 3⟩ : WERResult).substitutions +
      (⟨(3 : ℚ)/4, 2, 1, 0, 4, 3⟩ : WERResult).deletions +
      (⟨(3 : ℚ)/4, 2, 1, 0, 4, 3⟩ : WERResult).insertions :=
  C9_total_symmetric "a b a" "b c a b" ⟨(3 : ℚ)/3, 0, 1, 2, 3, 4⟩
    ⟨(3 : ℚ)/4, 2, 1, 0, 4, 3⟩ rfl rfl

/-- C10: `calculate_simple_wer` succeeds exactly when `calculate_wer`
succeeds, returning precisely its `wer_score` field, and propagates the very
same error when `calculate_wer` fails. -/
theorem C10_simple_wer_refines :
    (∀ (r h : String) (res : WERResult), calculate_wer r h = Except.ok res →
      calculate_simple_wer r h = Except.ok res.wer_score) ∧
    (∀ (r h : String) (e : WERError), calculate_wer r h = Except.error e →
      calculate_simple_wer r h = Except.error e) := by
  constructor
  · intro r h res hok
    unfold calculate_simple_wer
    rw [hok]
    rfl
  · intro r h e herr
    unfold calculate_simple_wer
    rw [herr]
    rfl

/-- Witness for C10 on one success and one failure. -/
theorem C10_simple_wer_refines_witness :
    calculate_simple_wer "hello" "hello there friend" =
      Except.ok ((⟨(2 : ℚ)/1, 0, 0, 2, 1, 3⟩ : WERResult).wer_score) ∧
    calculate_simple_wer "" "x" = Except.error WERError.invalidInput :=
  ⟨C10_simple_wer_refines.1 "hello" "hello there friend"
      ⟨(2 : ℚ)/1, 0, 0, 2, 1, 3⟩ rfl,
    C10_simple_wer_refines.2 "" "x" WERError.invalidInput rfl⟩

end WER
